import Mathlib

/-!
Verification development for the exam lifecycle and auto-grading engine of the
weblearn application (src/app.py).  The Python code is shallowly embedded:
JSON scalar values become the inductive type `PyVal`, Python dicts holding
per-question answers become association lists over string keys, and the
route-level functions `generate_exam`, `create_exam_session`, `start_exam`,
`save_answer`, `submit_exam`, `calculate_exam_score`, `generate_exam_questions`
and `get_exam_records` become Lean functions over these data.  Exceptions that
the Python code can raise inside a `try` block are modelled with `Except`.
-/

/-- Scalar JSON/Python values that can occur as stored answers, raw student
answers and dict entries.  (Container values are not needed by the scoring
paths modelled here.) -/
inductive PyVal where
  | str (s : String)
  | int (n : Int)
  | bool (b : Bool)
  | none
deriving DecidableEq, Repr

/-- Python truthiness (`if user_answer:` etc.) for the scalar values. -/
def pyTruthy : PyVal → Bool
  | .str s => s ≠ ""
  | .int n => n ≠ 0
  | .bool b => b
  | .none => false

/-- Python whitespace test used by `str.strip()` (ASCII fragment). -/
def pySpace (c : Char) : Bool := c = ' ' ∨ c = '\t' ∨ c = '\n' ∨ c = '\r'

/-- Model of Python `str.strip()`: drop leading and trailing whitespace. -/
def pyStrip (s : String) : String :=
  String.mk (((s.data.dropWhile pySpace).reverse.dropWhile pySpace).reverse)

/-- Model of Python `str.upper()` (ASCII uppercasing suffices for the
letter/keyword comparisons performed by the code). -/
def pyUpper (s : String) : String := String.mk (s.data.map Char.toUpper)

/-- Model of Python `str.lower()`. -/
def pyLower (s : String) : String := String.mk (s.data.map Char.toLower)

/-- Helper for substring search: does the second list start with the first? -/
def charsStartWith : List Char → List Char → Bool
  | [], _ => true
  | _ :: _, [] => false
  | c :: cs, d :: ds => c = d && charsStartWith cs ds

/-- Helper for substring search: does the needle occur somewhere in the hay? -/
def charsHasSub (needle : List Char) : List Char → Bool
  | [] => charsStartWith needle []
  | d :: ds => charsStartWith needle (d :: ds) || charsHasSub needle ds

/-- Model of the Python membership test `needle in hay` on strings. -/
def pyIn (needle hay : String) : Bool := charsHasSub needle.data hay.data

/-- Decimal digits of a natural number (fuel-driven so that it reduces in the
kernel); fuel `n + 1` always suffices. -/
def natDigsAux : Nat → Nat → List Char
  | 0, _ => []
  | fuel + 1, n =>
    if n < 10 then [Nat.digitChar n]
    else natDigsAux fuel (n / 10) ++ [Nat.digitChar (n % 10)]

/-- Model of Python `str(n)` for a natural number. -/
def pyStrNat (n : Nat) : String := String.mk (natDigsAux (n + 1) n)

/-- Model of Python `str(i)` for an integer. -/
def pyStrInt (i : Int) : String :=
  if i < 0 then String.mk ('-' :: (pyStrNat i.natAbs).data) else pyStrNat i.toNat

/-- Model of Python `str(v)` on scalar values. -/
def pyStr : PyVal → String
  | .str s => s
  | .int n => pyStrInt n
  | .bool b => if b then "True" else "False"
  | .none => "None"

/-- Decimal value of a digit list, used to invert `natDigsAux`. -/
def decVal (l : List Char) : Nat := l.foldl (fun a c => a * 10 + (c.toNat - 48)) 0


/-- Python dict lookup `d.get(k, default)` over an association list (insertion
order preserved, as for Python dicts). -/
def dictGet {α : Type} (d : List (String × α)) (k : String) (default : α) : α :=
  match d.find? (fun p => p.1 = k) with
  | some p => p.2
  | Option.none => default

/-- Python dict lookup that distinguishes a missing key. -/
def dictFind {α : Type} (d : List (String × α)) (k : String) : Option α :=
  (d.find? (fun p => p.1 = k)).map Prod.snd

/-- Python dict key-membership test `k in d`. -/
def dictHas {α : Type} (d : List (String × α)) (k : String) : Bool :=
  d.any (fun p => p.1 = k)

/-- Python dict assignment `d[k] = v`: overwrite in place if the key exists,
otherwise append (Python dicts preserve insertion order). -/
def dictInsert {α : Type} (d : List (String × α)) (k : String) (v : α) :
    List (String × α) :=
  if dictHas d k then d.map (fun p => if p.1 = k then (k, v) else p) else d ++ [(k, v)]

/-- A question dict as stored inside an exam.  Every field is read by the code
through `dict.get` with a default, so absent keys are modelled with `Option`.
The dict key named type is modelled by the field `qtype`; `score` is modelled
as an optional integer (the generator only ever stores the integers 2 and 1). -/
structure Question where
  qtype : Option String
  question : Option String
  options : Option (List PyVal)
  answer : Option PyVal
  answerText : Option String
  analysis : Option String
  score : Option Int
deriving DecidableEq, Repr

/-- An exam dict as produced by `generate_exam` (display-only fields such as
chapters, difficulty and duration are omitted). -/
structure Exam where
  title : String
  subject : String
  totalScore : Int
  questions : List Question
  questionCount : Nat
deriving DecidableEq, Repr

/-- One entry of `question_results` in the score result. -/
structure QuestionResult where
  question_index : Nat
  question : String
  user_answer : PyVal
  correct_answer : PyVal
  is_correct : Bool
  earned_score : Int
  full_score : Int
  question_type : String
deriving DecidableEq, Repr

/-- The value returned by `calculate_exam_score`.  `percentage` is kept as an
exact rational (the code rounds the floating-point percentage to 2 decimals
for display; that rounding is not modelled).  `error` records whether the
degraded all-zero result of the outer `except` branch was returned. -/
structure ScoreResult where
  total_score : Int
  full_score : Int
  percentage : Rat
  question_results : List QuestionResult
  error : Bool
deriving DecidableEq, Repr

/-- Python `isinstance(v, int)`; note that Python booleans are integers. -/
def pyIsInt : PyVal → Bool
  | .int _ => true
  | .bool _ => true
  | _ => false

/-- Numeric value of a Python integer-or-boolean. -/
def pyIntVal : PyVal → Int
  | .int n => n
  | .bool b => if b then 1 else 0
  | _ => 0

/-- Python `isinstance(v, bool)`. -/
def pyIsBool : PyVal → Bool
  | .bool _ => true
  | _ => false

/-- Python `==` on scalar values (`True == 1`, `False == 0`; values of
unrelated types compare unequal). -/
def pyEq : PyVal → PyVal → Bool
  | .str a, .str b => a = b
  | .int a, .int b => a = b
  | .bool a, .bool b => a = b
  | .int a, .bool b => a = (if b then (1 : Int) else 0)
  | .bool a, .int b => (if a then (1 : Int) else 0) = b
  | .none, .none => true
  | _, _ => false

/-- Python `v.strip()`: an `AttributeError` is raised when `v` is not a
string. -/
def pyStripVal : PyVal → Except Unit String
  | .str s => .ok (pyStrip s)
  | _ => .error ()

/-- Python `v.upper()`: an `AttributeError` is raised when `v` is not a
string. -/
def pyUpperVal : PyVal → Except Unit String
  | .str s => .ok (pyUpper s)
  | _ => .error ()

/-- The letter list of the scoring code. -/
def letterChoices : List String := ["A", "B", "C", "D", "E", "F"]

/-- Zero-based alphabet offset of a single-letter string. -/
def letterIndex (s : String) : Int := ((s.data.headD 'A').toNat : Int) - 65

/-- Model of Python `chr`. -/
def pyChr (n : Int) : String := String.mk [Char.ofNat n.toNat]

/-- Correctness check of a choice question (src/app.py lines 1201-1226).
Raises only on the legacy text path when the indexed option is not a
string. -/
def choiceIsCorrect (q : Question) (user_answer : PyVal) : Except Unit Bool :=
  let correct_answer := q.answer.getD (.str "")
  if pyIsInt correct_answer then
    .ok (pyTruthy user_answer &&
      letterChoices.contains (pyUpper (pyStrip (pyStr user_answer))) &&
      decide (letterIndex (pyUpper (pyStrip (pyStr user_answer))) = pyIntVal correct_answer))
  else
    let u := pyUpper (pyStrip (pyStr user_answer))
    if letterChoices.contains u then
      let options := (q.options.getD [])
      let user_index := letterIndex u
      if 0 ≤ user_index ∧ user_index < options.length then do
        let user_text := options.getD user_index.toNat PyVal.none
        let t ← pyStripVal user_text
        .ok (t = pyStrip (pyStr correct_answer))
      else
        .ok false
    else
      .ok (pyStrip (pyStr user_answer) = pyStrip (pyStr correct_answer))

/-- Correctness check of a judge question (src/app.py lines 1228-1240).
With a boolean stored answer, `user_answer.upper()` raises when the raw
answer is not a string. -/
def judgeIsCorrect (q : Question) (user_answer : PyVal) : Except Unit Bool :=
  let correct_answer := q.answer.getD (.str "")
  match correct_answer with
  | .bool b => do
      let u ← pyUpperVal user_answer
      let user_bool : Option Bool :=
        if u = "A" then some true else if u = "B" then some false else Option.none
      .ok (user_bool = some b)
  | _ =>
      .ok (pyUpper (pyStrip (pyStr user_answer)) = pyUpper (pyStrip (pyStr correct_answer)))

/-- Correctness check of any other question type (src/app.py lines 1242-1244):
correct iff the raw answer is truthy and strips to a non-empty string. -/
def subjectiveIsCorrect (user_answer : PyVal) : Except Unit Bool :=
  if pyTruthy user_answer then do
    let t ← pyStripVal user_answer
    .ok (t ≠ "")
  else
    .ok false

/-- Display formatting of the user and correct answers
(src/app.py lines 1248-1268); returns the pair (user, correct). -/
def displayAnswers (q : Question) (user_answer correct_answer : PyVal) : PyVal × PyVal :=
  if q.qtype = some "choice" then
    if pyIsInt correct_answer then
      let ca := pyIntVal correct_answer
      (user_answer,
        .str (if 0 ≤ ca ∧ ca ≤ 5 then pyChr (65 + ca) else pyStr correct_answer))
    else
      (user_answer, correct_answer)
  else if q.qtype = some "judge" then
    let dc := if pyIsBool correct_answer then
        PyVal.str (if pyTruthy correct_answer then "正确" else "错误")
      else correct_answer
    let du := if pyEq user_answer (.str "A") then PyVal.str "正确"
      else if pyEq user_answer (.str "B") then PyVal.str "错误"
      else if ¬ pyTruthy user_answer then PyVal.str "未作答"
      else user_answer
    (du, dc)
  else
    (user_answer, correct_answer)

/-- Dispatch of the per-type correctness check on `question.get('type')`. -/
def questionIsCorrect (q : Question) (user_answer : PyVal) : Except Unit Bool :=
  if q.qtype = some "choice" then choiceIsCorrect q user_answer
  else if q.qtype = some "judge" then judgeIsCorrect q user_answer
  else subjectiveIsCorrect user_answer

/-- One iteration of the scoring loop of `calculate_exam_score` for the
question at index `i`. -/
def scoreQuestion (i : Nat) (q : Question) (answers : List (String × PyVal)) :
    Except Unit QuestionResult :=
  let question_score := q.score.getD 1
  let user_answer := dictGet answers (pyStrNat i) (.str "")
  let correct_answer := q.answer.getD (.str "")
  match questionIsCorrect q user_answer with
  | .error e => .error e
  | .ok is_correct =>
    let earned_score := if is_correct then question_score else 0
    let d := displayAnswers q user_answer correct_answer
    .ok { question_index := i, question := q.question.getD "", user_answer := d.1,
          correct_answer := d.2, is_correct := is_correct, earned_score := earned_score,
          full_score := question_score, question_type := q.qtype.getD "unknown" }

/-- The scoring loop: accumulated (total_score, full_score, question_results).
The first exception aborts the loop (the accumulated partial sums are
discarded by the caller's `except` branch). -/
def scoreLoop (answers : List (String × PyVal)) :
    List Question → Nat → Except Unit (Int × Int × List QuestionResult)
  | [], _ => .ok (0, 0, [])
  | q :: qs, i =>
    match scoreQuestion i q answers with
    | .error e => .error e
    | .ok r =>
      match scoreLoop answers qs (i + 1) with
      | .error e => .error e
      | .ok (t, f, rs) => .ok (r.earned_score + t, r.full_score + f, r :: rs)

/-- Model of `calculate_exam_score` (src/app.py lines 1185-1296): the scoring
loop wrapped in a `try` whose `except` branch degrades to the all-zero result
with empty `question_results`. -/
def calculate_exam_score (exam_data : Exam) (answers : List (String × PyVal)) :
    ScoreResult :=
  match scoreLoop answers exam_data.questions 0 with
  | .ok (t, f, rs) =>
      { total_score := t, full_score := f,
        percentage := if f > 0 then (t : Rat) / (f : Rat) * 100 else 0,
        question_results := rs, error := false }
  | .error _ =>
      { total_score := 0, full_score := 0, percentage := 0, question_results := [],
        error := true }

/-- JSON values, used for the candidates returned by the AI in
`generate_exam_questions`. -/
inductive Json where
  | null
  | bool (b : Bool)
  | num (n : Int)
  | str (s : String)
  | arr (elems : List Json)
  | obj (fields : List (String × Json))
deriving Repr

/-- Membership of a key in a JSON object. -/
def jsonHasKey (fields : List (String × Json)) (k : String) : Bool :=
  fields.any (fun p => p.1 = k)

/-- Validation of one AI-returned candidate (src/app.py lines 603-618): it
must be a mapping containing content, answer and analysis, and additionally
options when the requested type is the choice type. -/
def isValidQuestion (question_type : String) (j : Json) : Bool :=
  match j with
  | .obj fields =>
      jsonHasKey fields "content" && jsonHasKey fields "answer" &&
      jsonHasKey fields "analysis" &&
      (!(question_type = "单项选择题") || jsonHasKey fields "options")
  | _ => false

/-- Model of `generate_exam_questions` (src/app.py lines 548-629) with the
external JSON parse stage abstracted: `isEmptyResponse` is the test
`not response or response.strip() == ""`; `direct` is the outcome of
`json.loads(response)`; `extracted` is the outcome of extracting the
first-to-last square-bracket substring and parsing it, with `Option.none`
covering both a failed regex match and a second parse failure (the latter is
caught by the outer except, which also returns the empty list). -/
def parsedResponse (direct extracted : Option Json) : Option Json :=
  match direct with
  | some j => some j
  | Option.none => extracted

/-- The effective parse outcome, then validation, truncation. -/
def generate_exam_questions (question_type : String) (count : Nat)
    (isEmptyResponse : Bool) (direct extracted : Option Json) : List Json :=
  if isEmptyResponse then []
  else
    match parsedResponse direct extracted with
    | Option.none => []
    | some j =>
      match j with
      | .arr qs =>
          if qs.isEmpty then []
          else (qs.filter (isValidQuestion question_type)).take count
      | _ => []

/-- One validated AI candidate as consumed by `generate_exam`
(src/app.py lines 917-973); the fields carry the JSON schema the prompt
requests. -/
structure GenQuestion where
  content : String
  options : List String
  answer : String
  analysis : String
deriving DecidableEq, Repr

/-- Index of the first list element satisfying the test, starting the count
at `i`; models the for-with-break loops of `generate_exam`. -/
def firstMatchIdx (p : String → Bool) : List String → Nat → Option Nat
  | [], _ => Option.none
  | o :: os, i => if p o then some i else firstMatchIdx p os (i + 1)

/-- Conversion of the AI answer text of a choice question into an option
index (src/app.py lines 921-934): default 0; first exact trimmed match wins;
when that leaves index 0, fall back to the first mutual-substring match. -/
def answerIndexOf (answer_text : String) (options : List String) : Nat :=
  if answer_text ≠ "" ∧ options ≠ [] then
    let exact := (firstMatchIdx (fun o => pyStrip answer_text = pyStrip o) options 0).getD 0
    if exact = 0 ∧ answer_text ≠ "" then
      (firstMatchIdx
        (fun o => pyIn (pyStrip answer_text) (pyStrip o) ||
                  pyIn (pyStrip o) (pyStrip answer_text)) options 0).getD exact
    else exact
  else 0

/-- Conversion of the AI answer text of a judge question into a boolean
(src/app.py lines 957-964): keyword matching, default true. -/
def judgeAnswerBool (answer_text : String) : Bool :=
  if answer_text ≠ "" then
    let lower := pyStrip (pyLower answer_text)
    if ["错", "错误", "false", "否", "不正确", "不对"].any (fun w => pyIn w lower) then false
    else if ["对", "正确", "true", "是", "对的"].any (fun w => pyIn w lower) then true
    else true
  else true

/-- The choice-question dict appended by `generate_exam`
(src/app.py lines 936-944): answer stored as an index, 2 points. -/
def mkChoiceQuestion (q : GenQuestion) : Question :=
  { qtype := some "choice", question := some q.content,
    options := some (q.options.map PyVal.str),
    answer := some (PyVal.int (answerIndexOf q.answer q.options)),
    answerText := some q.answer, analysis := some q.analysis, score := some 2 }

/-- The judge-question dict appended by `generate_exam`
(src/app.py lines 966-973): answer stored as a boolean, 1 point, no options
key. -/
def mkJudgeQuestion (q : GenQuestion) : Question :=
  { qtype := some "judge", question := some q.content, options := Option.none,
    answer := some (PyVal.bool (judgeAnswerBool q.answer)),
    answerText := some q.answer, analysis := some q.analysis, score := some 1 }

/-- Model of the exam-building part of `generate_exam`
(src/app.py lines 908-993).  `includeChoice` models the test that the choice
type was selected with a positive count, and `choiceGen` the list returned by
`generate_exam_questions` for it (likewise for judge); the source adds
`len(list) * weight` to `total_score` inside an if-nonempty guard, which
equals the unguarded sum.  Returns `Option.none` when no questions were
produced (the 400 error branch). -/
def generate_exam (subject : String) (includeChoice includeJudge : Bool)
    (choiceGen judgeGen : List GenQuestion) : Option Exam :=
  let cqs := if includeChoice then choiceGen else []
  let jqs := if includeJudge then judgeGen else []
  let questions := cqs.map mkChoiceQuestion ++ jqs.map mkJudgeQuestion
  let total : Int := cqs.length * 2 + jqs.length * 1
  if questions.isEmpty then Option.none
  else some { title := subject ++ "智能试卷", subject := subject, totalScore := total,
              questions := questions, questionCount := questions.length }

/-- A persisted exam-session unit.  `auto_save_count` is optional because the
`create_exam_session` entry point initializes the unit without that key;
fields written only later (`last_save_time`, `end_time`, `score_result`) are
optional likewise, as is `student_name` (set only by `start_exam`). -/
structure Session where
  session_id : String
  student_name : Option String
  exam_data : Exam
  start_time : String
  status : String
  answers : List (String × PyVal)
  auto_save_count : Option Int
  last_save_time : Option String
  end_time : Option String
  score_result : Option ScoreResult
deriving DecidableEq, Repr

/-- Model of `create_exam_session` (src/app.py lines 999-1030): the persisted
unit has status not_started, an empty answers dict and no `auto_save_count`
key; the id is `exam_{timestamp}_{random hex}`. -/
def create_exam_session (exam : Exam) (timestamp randomHex now : String) : Session :=
  { session_id := "exam_" ++ timestamp ++ "_" ++ randomHex, student_name := Option.none,
    exam_data := exam, start_time := now, status := "not_started", answers := [],
    auto_save_count := Option.none, last_save_time := Option.none,
    end_time := Option.none, score_result := Option.none }

/-- Model of `start_exam` (src/app.py lines 1049-1092): the persisted unit
has status in_progress, an empty answers dict and `auto_save_count` 0; the id
is `exam_{timestamp}_{hash}`. -/
def start_exam (exam : Exam) (student_name : String) (timestamp hashStr now : String) :
    Session :=
  { session_id := "exam_" ++ timestamp ++ "_" ++ hashStr,
    student_name := some student_name, exam_data := exam, start_time := now,
    status := "in_progress", answers := [], auto_save_count := some 0,
    last_save_time := Option.none, end_time := Option.none, score_result := Option.none }

/-- Outcome of `save_answer`: on success the updated persisted session and
the returned `save_count`; `badRequest` is the 400 branch for missing
parameters; `serverError` is the 500 branch of the catch-all except.  When
the except branch is taken nothing has been written, so the persisted unit is
unchanged. -/
inductive SaveResult where
  | ok (session : Session) (save_count : Int)
  | badRequest
  | serverError
deriving DecidableEq, Repr

/-- Model of `save_answer` (src/app.py lines 1094-1130) acting on the loaded
session (the 404 missing-file branch is before the load and not modelled
here).  `question_index` arrives as a JSON integer, so it is never the
missing value checked by the 400 guard.  Incrementing a missing
`auto_save_count` key raises `KeyError`, which the catch-all except turns
into the 500 response before any write happens. -/
def save_answer (s : Session) (question_index : Nat) (answer : PyVal) (now : String) :
    SaveResult :=
  if ¬ (s.session_id ≠ "" ∧ answer ≠ PyVal.none) then .badRequest
  else
    match s.auto_save_count with
    | Option.none => .serverError
    | some c =>
        .ok { s with answers := dictInsert s.answers (pyStrNat question_index) answer,
                     auto_save_count := some (c + 1), last_save_time := some now } (c + 1)

/-- Sequential execution of `save_answer` requests against one session,
propagating the persisted session; any failing call aborts (no later request
in the sequence is considered). -/
def runSaves (now : String) : Session → List (Nat × PyVal) → Option Session
  | s, [] => some s
  | s, (i, a) :: rest =>
    match save_answer s i a now with
    | .ok s2 _ => runSaves now s2 rest
    | _ => Option.none

/-- The persisted state touched by `submit_exam`: the session units and the
archive units in the exam_records directory (keyed by file name without the
json extension). -/
structure Store where
  sessions : List (String × Session)
  records : List (String × Session)
deriving DecidableEq, Repr

/-- Outcome of `submit_exam`: on success the new persisted state and the
returned score result; `badRequest` is the 400 branch for a missing session
id and `notFound` the 404 branch for a missing session unit. -/
inductive SubmitResult where
  | ok (store : Store) (score : ScoreResult)
  | badRequest
  | notFound
deriving DecidableEq, Repr

/-- Model of `submit_exam` (src/app.py lines 1132-1183): load the session,
recompute the score from its current answers, set status completed and
end_time, write the session unit back and write the archive unit keyed
`{session_id}_result`.  The session status is never inspected. -/
def submit_exam (store : Store) (session_id : String) (now : String) : SubmitResult :=
  if session_id = "" then .badRequest
  else
    match dictFind store.sessions session_id with
    | Option.none => .notFound
    | some s =>
        let score_result := calculate_exam_score s.exam_data s.answers
        let s2 := { s with status := "completed", end_time := some now,
                           score_result := some score_result }
        .ok { sessions := dictInsert store.sessions session_id s2,
              records := dictInsert store.records (session_id ++ "_result") s2 }
           score_result

/-- One summary row returned by the exam-records listing. -/
structure RecordSummary where
  session_id : String
  student_name : String
  exam_title : String
  subject : String
  start_time : String
  end_time : String
  status : String
  total_score : Int
  full_score : Int
  percentage : Rat
deriving DecidableEq, Repr

/-- The summary projection of one readable archive unit
(src/app.py lines 1314-1326); missing optional fields fall back to the same
defaults the dict.get calls use. -/
def summarize (r : Session) : RecordSummary :=
  { session_id := r.session_id, student_name := r.student_name.getD "匿名",
    exam_title := r.exam_data.title, subject := r.exam_data.subject,
    start_time := r.start_time, end_time := r.end_time.getD "",
    status := r.status,
    total_score := (r.score_result.map (fun sr => sr.total_score)).getD 0,
    full_score := (r.score_result.map (fun sr => sr.full_score)).getD 0,
    percentage := (r.score_result.map (fun sr => sr.percentage)).getD 0 }

/-- Lexicographic comparison of character lists by code point, the order
Python uses to compare strings. -/
def lexLe : List Char → List Char → Bool
  | [], _ => true
  | _ :: _, [] => false
  | a :: as, b :: bs =>
    if a.toNat < b.toNat then true
    else if b.toNat < a.toNat then false
    else lexLe as bs

/-- Python string comparison `a <= b`. -/
def strLe (a b : String) : Bool := lexLe a.data b.data

/-- Stable descending insertion by `end_time`: the element (which precedes
the already-sorted tail in the original order) is placed before the first
element whose key is not larger, so ties keep their original order, as
Python's stable sort does. -/
def insertByEnd (x : RecordSummary) : List RecordSummary → List RecordSummary
  | [] => [x]
  | y :: ys => if strLe y.end_time x.end_time then x :: y :: ys else y :: insertByEnd x ys

/-- Stable sort by `end_time` descending, modelling Python's
`records.sort(key=lambda x: x.get(end_time, ''), reverse=True)`, which is a
stable descending sort; a stable descending sort of a list is unique, so the
insertion sort below computes the same list. -/
def sortByEndDesc : List RecordSummary → List RecordSummary
  | [] => []
  | x :: xs => insertByEnd x (sortByEndDesc xs)

/-- Model of `get_exam_records` (src/app.py lines 1298-1340).  The input is
the directory scan: one entry per `_result.json` unit, `Option.none` for a
unit whose read or parse raised (it is skipped by the per-file except).  The
summaries are sorted by `end_time` descending. -/
def get_exam_records (files : List (Option Session)) : List RecordSummary :=
  sortByEndDesc (files.filterMap (fun f => f.map summarize))

/-- Sample current-format choice question: stored answer is the index 2. -/
def qChoiceInt : Question :=
  { qtype := some "choice", question := some "首都是哪个城市",
    options := some [.str "北京", .str "上海", .str "广州", .str "深圳"],
    answer := some (.int 2), answerText := some "广州", analysis := some "",
    score := some 2 }

/-- Sample legacy-format choice question: stored answer is option text. -/
def qChoiceText : Question :=
  { qtype := some "choice", question := some "首都是哪个城市",
    options := some [.str "北京", .str "上海"],
    answer := some (.str "北京"), answerText := some "北京", analysis := some "",
    score := some 2 }

/-- Sample current-format judge question: stored answer is the boolean true. -/
def qJudgeTrue : Question :=
  { qtype := some "judge", question := some "数据库是软件",
    options := Option.none, answer := some (.bool true), answerText := some "对",
    analysis := some "", score := some 1 }

/-- Exam of two judge questions used to exercise `calculate_exam_score` on a
malformed answer. -/
def examTwoJudge : Exam :=
  { title := "数据库智能试卷", subject := "数据库", totalScore := 2,
    questions := [qJudgeTrue, qJudgeTrue], questionCount := 2 }

/-- Answers where question 0 carries a malformed (non-string) value and
question 1 a correct letter answer. -/
def answersMalformed0 : List (String × PyVal) := [("0", .int 5), ("1", .str "A")]

/-- Exam combining the sample questions, used by concrete witnesses. -/
def examMixed : Exam :=
  { title := "数据库智能试卷", subject := "数据库", totalScore := 3,
    questions := [qChoiceInt, qJudgeTrue], questionCount := 2 }

/-- Sample AI-returned choice candidate. -/
def genChoiceSample : GenQuestion :=
  { content := "首都是哪个城市", options := ["北京", "上海", "广州", "深圳"],
    answer := "广州", analysis := "略" }

/-- Sample AI-returned judge candidate. -/
def genJudgeSample : GenQuestion :=
  { content := "数据库是软件", options := [], answer := "对", analysis := "略" }

/-- A valid AI candidate object for the judge type. -/
def jsonValidCandidate : Json :=
  .obj [("content", .str "数据库是软件"), ("answer", .str "对"), ("analysis", .str "略")]

/-- An invalid AI candidate (missing the analysis key). -/
def jsonInvalidCandidate : Json :=
  .obj [("content", .str "q"), ("answer", .str "对")]

/-- An archived record with no `end_time` key. -/
def recMissingEnd : Session :=
  { session_id := "exam_20250101_100000_aa", student_name := some "甲",
    exam_data := examMixed, start_time := "2025-01-01T09:00:00",
    status := "completed", answers := [], auto_save_count := some 0,
    last_save_time := Option.none, end_time := Option.none,
    score_result := Option.none }

/-- An archived record with a dated `end_time`. -/
def recDated : Session :=
  { session_id := "exam_20250101_110000_bb", student_name := some "乙",
    exam_data := examMixed, start_time := "2025-01-01T10:00:00",
    status := "completed", answers := [], auto_save_count := some 0,
    last_save_time := Option.none, end_time := some "2025-01-01T11:30:00",
    score_result := Option.none }

/-- A store holding one completed session and its archived record. -/
def storeSample : Store :=
  { sessions := [("exam_20250101_110000_bb", recDated)],
    records := [("exam_20250101_110000_bb_result", recDated)] }

/-!
Helper lemmas about the embedding primitives.
-/

theorem digitChar_toNat {k : Nat} (h : k < 10) : (Nat.digitChar k).toNat = 48 + k := by
  interval_cases k <;> rfl

theorem decVal_append (l : List Char) (c : Char) :
    decVal (l ++ [c]) = decVal l * 10 + (c.toNat - 48) := by
  simp [decVal, List.foldl_append]

theorem decVal_natDigsAux : ∀ (fuel n : Nat), n < fuel → decVal (natDigsAux fuel n) = n := by
  intro fuel
  induction fuel with
  | zero => intro n h; omega
  | succ f ih =>
    intro n h
    by_cases h10 : n < 10
    · simp [natDigsAux, h10, decVal, digitChar_toNat h10]
    · have hdiv : n / 10 < n := Nat.div_lt_self (by omega) (by omega)
      have hf : n / 10 < f := by omega
      have hmod : n % 10 < 10 := Nat.mod_lt _ (by omega)
      simp only [natDigsAux, if_neg h10, decVal_append, ih _ hf, digitChar_toNat hmod]
      omega

theorem pyStrNat_inj : Function.Injective pyStrNat := by
  intro m n h
  have hm := decVal_natDigsAux (m + 1) m (by omega)
  have hn := decVal_natDigsAux (n + 1) n (by omega)
  have hdata : natDigsAux (m + 1) m = natDigsAux (n + 1) n := by
    have := congrArg String.data h
    simpa [pyStrNat] using this
  rw [hdata, hn] at hm
  omega

/-!
Theorems settling the claims, with their supporting lemmas.
-/

/-- Reduction of `scoreQuestion` once the per-type correctness check is known
to succeed. -/
theorem scoreQuestion_eq (i : Nat) (q : Question) (answers : List (String × PyVal))
    (b : Bool)
    (hb : questionIsCorrect q (dictGet answers (pyStrNat i) (PyVal.str "")) = Except.ok b) :
    scoreQuestion i q answers = Except.ok
      { question_index := i, question := q.question.getD "",
        user_answer := (displayAnswers q (dictGet answers (pyStrNat i) (PyVal.str ""))
          (q.answer.getD (PyVal.str ""))).1,
        correct_answer := (displayAnswers q (dictGet answers (pyStrNat i) (PyVal.str ""))
          (q.answer.getD (PyVal.str ""))).2,
        is_correct := b, earned_score := if b then q.score.getD 1 else 0,
        full_score := q.score.getD 1, question_type := q.qtype.getD "unknown" } := by
  simp only [scoreQuestion]
  rw [hb]

/-- C2: for a choice question whose stored answer is an integer index, the
student's raw letter answer is normalized case-insensitively (strip then
upper) and converted via zero-based alphabet offset; scoring succeeds without
error, is correct exactly when the converted index equals the stored index,
and a letter whose index lies beyond the options' range (while the stored
index is in range) scores incorrect with no out-of-range failure. -/
theorem C2_choice_int (q : Question) (c : Int) (s : String) (i : Nat)
    (answers : List (String × PyVal))
    (hq : q.qtype = some "choice") (ha : q.answer = some (PyVal.int c))
    (hu : dictGet answers (pyStrNat i) (PyVal.str "") = PyVal.str s)
    (hl : letterChoices.contains (pyUpper (pyStrip s)) = true) :
    ∃ r, scoreQuestion i q answers = Except.ok r ∧
      (r.is_correct = true ↔ letterIndex (pyUpper (pyStrip s)) = c) ∧
      r.earned_score = (if r.is_correct then q.score.getD 1 else 0) ∧
      (c < ((q.options.getD []).length : Int) →
        ((q.options.getD []).length : Int) ≤ letterIndex (pyUpper (pyStrip s)) →
        r.is_correct = false) := by
  have hs : s ≠ "" := by
    intro h
    subst h
    simp [pyStrip, pyUpper, letterChoices] at hl
  have htr : pyTruthy (PyVal.str s) = true := by simp [pyTruthy, hs]
  have hbranch : questionIsCorrect q (dictGet answers (pyStrNat i) (PyVal.str "")) =
      Except.ok (decide (letterIndex (pyUpper (pyStrip s)) = c)) := by
    unfold questionIsCorrect
    rw [hq, if_pos rfl, hu]
    unfold choiceIsCorrect
    rw [ha]
    simp only [Option.getD_some, pyIsInt, if_pos, pyStr, htr, hl, Bool.true_and, pyIntVal]
  refine ⟨_, scoreQuestion_eq i q answers _ hbranch, ?_, ?_, ?_⟩
  · simp
  · rfl
  · intro h1 h2
    simp only [decide_eq_false_iff_not]
    omega

/-- C2 witness: lowercase answer c against stored index 2 with 4 options. -/
theorem C2_witness :
    ∃ r, scoreQuestion 0 qChoiceInt [("0", PyVal.str "c")] = Except.ok r ∧
      (r.is_correct = true ↔ letterIndex (pyUpper (pyStrip "c")) = 2) ∧
      r.earned_score = (if r.is_correct then qChoiceInt.score.getD 1 else 0) ∧
      (2 < ((qChoiceInt.options.getD []).length : Int) →
        ((qChoiceInt.options.getD []).length : Int) ≤ letterIndex (pyUpper (pyStrip "c")) →
        r.is_correct = false) :=
  C2_choice_int qChoiceInt 2 "c" 0 [("0", PyVal.str "c")] rfl rfl (by decide) (by decide)

/-- C3: for a judge question with stored boolean answer true, raw answer A
scores correct and B incorrect; an empty or missing answer (the dict lookup
default is the empty string) is indeterminate, never equal to a boolean,
hence incorrect with 0 points, and its display form is 未作答. -/
theorem C3_judge_true (q : Question) (i : Nat) (answers : List (String × PyVal))
    (hq : q.qtype = some "judge") (ha : q.answer = some (PyVal.bool true)) :
    (dictGet answers (pyStrNat i) (PyVal.str "") = PyVal.str "A" →
       ∃ r, scoreQuestion i q answers = Except.ok r ∧ r.is_correct = true) ∧
    (dictGet answers (pyStrNat i) (PyVal.str "") = PyVal.str "B" →
       ∃ r, scoreQuestion i q answers = Except.ok r ∧ r.is_correct = false) ∧
    (dictGet answers (pyStrNat i) (PyVal.str "") = PyVal.str "" →
       ∃ r, scoreQuestion i q answers = Except.ok r ∧ r.is_correct = false ∧
         r.earned_score = 0 ∧ r.user_answer = PyVal.str "未作答") := by
  refine ⟨?_, ?_, ?_⟩
  · intro hu
    have hbranch : questionIsCorrect q (dictGet answers (pyStrNat i) (PyVal.str "")) =
        Except.ok true := by
      unfold questionIsCorrect judgeIsCorrect
      rw [hq, hu, ha]
      rfl
    exact ⟨_, scoreQuestion_eq i q answers true hbranch, rfl⟩
  · intro hu
    have hbranch : questionIsCorrect q (dictGet answers (pyStrNat i) (PyVal.str "")) =
        Except.ok false := by
      unfold questionIsCorrect judgeIsCorrect
      rw [hq, hu, ha]
      rfl
    exact ⟨_, scoreQuestion_eq i q answers false hbranch, rfl⟩
  · intro hu
    have hbranch : questionIsCorrect q (dictGet answers (pyStrNat i) (PyVal.str "")) =
        Except.ok false := by
      unfold questionIsCorrect judgeIsCorrect
      rw [hq, hu, ha]
      rfl
    refine ⟨_, scoreQuestion_eq i q answers false hbranch, rfl, rfl, ?_⟩
    rw [hu, ha]
    unfold displayAnswers
    rw [hq]
    rfl

/-- C3 witness: missing answer on a judge question with stored true. -/
theorem C3_witness :
    ∃ r, scoreQuestion 9 qJudgeTrue [] = Except.ok r ∧ r.is_correct = false ∧
      r.earned_score = 0 ∧ r.user_answer = PyVal.str "未作答" :=
  (C3_judge_true qJudgeTrue 9 [] rfl rfl).2.2 (by decide)

/-- The alphabet offset of any letter in the allowed list is between 0
and 5. -/
theorem letterIndex_bounds (u : String) (h : letterChoices.contains u = true) :
    0 ≤ letterIndex u ∧ letterIndex u ≤ 5 := by
  have h2 : u ∈ letterChoices := by
    simpa using h
  simp only [letterChoices] at h2
  fin_cases h2 <;> decide

/-- Indexing a mapped option list of strings. -/
theorem getD_map_str : ∀ (l : List String) (i : Nat), i < l.length →
    (l.map PyVal.str).getD i PyVal.none = PyVal.str (l.getD i "")
  | a :: l, 0, _ => rfl
  | a :: l, i + 1, h => getD_map_str l i (by simpa using h)

/-- C4: for a choice question whose stored answer is text (legacy format), a
letter answer within the options' range resolves to the option text at its
alphabet index and is compared trimmed against the stored text; a non-letter
answer is compared as raw trimmed text. -/
theorem C4_choice_legacy (q : Question) (ctext : String) (opts : List String) (s : String)
    (i : Nat) (answers : List (String × PyVal))
    (hq : q.qtype = some "choice") (ha : q.answer = some (PyVal.str ctext))
    (hopts : q.options = some (opts.map PyVal.str))
    (hu : dictGet answers (pyStrNat i) (PyVal.str "") = PyVal.str s) :
    (letterChoices.contains (pyUpper (pyStrip s)) = true →
      (letterIndex (pyUpper (pyStrip s))).toNat < opts.length →
      ∃ r, scoreQuestion i q answers = Except.ok r ∧
        r.is_correct =
          decide (pyStrip (opts.getD (letterIndex (pyUpper (pyStrip s))).toNat "") =
                  pyStrip ctext)) ∧
    (letterChoices.contains (pyUpper (pyStrip s)) = false →
      ∃ r, scoreQuestion i q answers = Except.ok r ∧
        r.is_correct = decide (pyStrip s = pyStrip ctext)) := by
  constructor
  · intro hl hrange
    obtain ⟨h0, _⟩ := letterIndex_bounds _ hl
    have hbranch : questionIsCorrect q (dictGet answers (pyStrNat i) (PyVal.str "")) =
        Except.ok (decide (pyStrip (opts.getD (letterIndex (pyUpper (pyStrip s))).toNat "") =
          pyStrip ctext)) := by
      unfold questionIsCorrect
      rw [hq, if_pos rfl, hu]
      unfold choiceIsCorrect
      rw [ha]
      simp only [Option.getD_some, pyIsInt, Bool.false_eq_true, if_false, pyStr, hopts, hl,
        if_true]
      rw [if_pos ⟨h0, by rw [List.length_map]; omega⟩]
      rw [getD_map_str opts _ hrange]
      rfl
    exact ⟨_, scoreQuestion_eq i q answers _ hbranch, rfl⟩
  · intro hl
    have hbranch : questionIsCorrect q (dictGet answers (pyStrNat i) (PyVal.str "")) =
        Except.ok (decide (pyStrip s = pyStrip ctext)) := by
      unfold questionIsCorrect
      rw [hq, if_pos rfl, hu]
      unfold choiceIsCorrect
      rw [ha]
      simp only [Option.getD_some, pyIsInt, Bool.false_eq_true, if_false, pyStr, hl]
    exact ⟨_, scoreQuestion_eq i q answers _ hbranch, rfl⟩

/-- C4 witness: stored text answer 北京 with options [北京, 上海] and raw
answer A scores correct. -/
theorem C4_witness :
    ∃ r, scoreQuestion 0 qChoiceText [("0", PyVal.str "A")] = Except.ok r ∧
      r.is_correct =
        decide (pyStrip (["北京", "上海"].getD (letterIndex (pyUpper (pyStrip "A"))).toNat "") =
                pyStrip "北京") :=
  (C4_choice_legacy qChoiceText "北京" ["北京", "上海"] "A" 0 [("0", PyVal.str "A")]
    rfl rfl rfl (by decide)).1 (by decide) (by decide)

/-- Sum of a constant integer over a list. -/
theorem sum_map_const_int {α : Type} (l : List α) (c : Int) :
    (l.map (fun _ => c)).sum = l.length * c := by
  induction l with
  | nil => simp
  | cons a l ih =>
    simp only [List.map_cons, List.sum_cons, ih, List.length_cons]
    push_cast
    ring

/-- The per-question scores assigned by the generator sum to 2 per choice
question plus 1 per judge question. -/
theorem gen_questions_score_sum (cqs jqs : List GenQuestion) :
    ((cqs.map mkChoiceQuestion ++ jqs.map mkJudgeQuestion).map
      (fun q => q.score.getD 1)).sum = (cqs.length : Int) * 2 + (jqs.length : Int) * 1 := by
  have h1 : ((fun (q : Question) => q.score.getD 1) ∘ mkChoiceQuestion) =
      fun (_ : GenQuestion) => (2 : Int) := by
    funext a
    simp [mkChoiceQuestion]
  have h2 : ((fun (q : Question) => q.score.getD 1) ∘ mkJudgeQuestion) =
      fun (_ : GenQuestion) => (1 : Int) := by
    funext a
    simp [mkJudgeQuestion]
  simp only [List.map_append, List.sum_append, List.map_map, h1, h2]
  rw [sum_map_const_int, sum_map_const_int]

/-- The exam built from given normalized question lists satisfies the
total-score invariant. -/
theorem generate_exam_core (subject : String) (cqs jqs : List GenQuestion) (exam : Exam)
    (h : (if (cqs.map mkChoiceQuestion ++ jqs.map mkJudgeQuestion).isEmpty = true then
            Option.none
          else some { title := subject ++ "智能试卷", subject := subject,
                      totalScore := (cqs.length : Int) * 2 + (jqs.length : Int) * 1,
                      questions := cqs.map mkChoiceQuestion ++ jqs.map mkJudgeQuestion,
                      questionCount :=
                        (cqs.map mkChoiceQuestion ++ jqs.map mkJudgeQuestion).length }) =
         some exam) :
    exam.totalScore = (exam.questions.map (fun q => q.score.getD 1)).sum ∧
    (∀ q ∈ exam.questions, q.qtype = some "choice" → q.score = some 2) ∧
    (∀ q ∈ exam.questions, q.qtype = some "judge" → q.score = some 1) := by
  split at h
  · exact absurd h (by simp)
  · obtain rfl := (Option.some.inj h).symm
    refine ⟨?_, ?_, ?_⟩
    · simp only [gen_questions_score_sum]
    · intro q hq hc
      rcases List.mem_append.1 hq with hm | hm
      · obtain ⟨a, _, rfl⟩ := List.mem_map.1 hm
        rfl
      · obtain ⟨a, _, rfl⟩ := List.mem_map.1 hm
        simp [mkJudgeQuestion] at hc
    · intro q hq hc
      rcases List.mem_append.1 hq with hm | hm
      · obtain ⟨a, _, rfl⟩ := List.mem_map.1 hm
        simp [mkChoiceQuestion] at hc
      · obtain ⟨a, _, rfl⟩ := List.mem_map.1 hm
        rfl

/-- C5: every exam produced by generate_exam has totalScore equal to the sum
of its questions' score fields, with every choice question assigned exactly
2 points and every judge question exactly 1 point. -/
theorem C5_generate_totalScore (subject : String) (ic ij : Bool)
    (cg jg : List GenQuestion) (exam : Exam)
    (h : generate_exam subject ic ij cg jg = some exam) :
    exam.totalScore = (exam.questions.map (fun q => q.score.getD 1)).sum ∧
    (∀ q ∈ exam.questions, q.qtype = some "choice" → q.score = some 2) ∧
    (∀ q ∈ exam.questions, q.qtype = some "judge" → q.score = some 1) := by
  simp only [generate_exam] at h
  exact generate_exam_core subject (if ic = true then cg else [])
    (if ij = true then jg else []) exam h

/-- C5 witness: a generated exam with one choice and one judge question. -/
theorem C5_witness :
    (Exam.mk "数据库智能试卷" "数据库" 3
      [mkChoiceQuestion genChoiceSample, mkJudgeQuestion genJudgeSample] 2).totalScore =
      ((Exam.mk "数据库智能试卷" "数据库" 3
        [mkChoiceQuestion genChoiceSample, mkJudgeQuestion genJudgeSample] 2).questions.map
          (fun q => q.score.getD 1)).sum ∧
    (∀ q ∈ (Exam.mk "数据库智能试卷" "数据库" 3
      [mkChoiceQuestion genChoiceSample, mkJudgeQuestion genJudgeSample] 2).questions,
        q.qtype = some "choice" → q.score = some 2) ∧
    (∀ q ∈ (Exam.mk "数据库智能试卷" "数据库" 3
      [mkChoiceQuestion genChoiceSample, mkJudgeQuestion genJudgeSample] 2).questions,
        q.qtype = some "judge" → q.score = some 1) :=
  C5_generate_totalScore "数据库" true true [genChoiceSample] [genJudgeSample] _ (by decide)

/-- C7: generate_exam_questions returns the empty list on an empty response,
on any parse failure (direct and extracted), on a non-array parse and on an
empty array; otherwise it returns exactly the valid candidates (mappings with
content, answer and analysis, plus options for the choice type), dropping
invalid candidates individually and truncating to at most the requested
count; every returned candidate is valid and the result never exceeds the
requested count. -/
theorem C7_generate_questions (qt : String) (count : Nat) (emp : Bool)
    (direct extracted : Option Json) :
    (emp = true → generate_exam_questions qt count emp direct extracted = []) ∧
    (parsedResponse direct extracted = Option.none →
      generate_exam_questions qt count emp direct extracted = []) ∧
    (∀ j, parsedResponse direct extracted = some j → (∀ l, j ≠ Json.arr l) →
      generate_exam_questions qt count emp direct extracted = []) ∧
    (parsedResponse direct extracted = some (Json.arr []) →
      generate_exam_questions qt count emp direct extracted = []) ∧
    (∀ qs, parsedResponse direct extracted = some (Json.arr qs) → qs ≠ [] → emp = false →
      generate_exam_questions qt count emp direct extracted =
        (qs.filter (isValidQuestion qt)).take count) ∧
    (∀ j ∈ generate_exam_questions qt count emp direct extracted,
      isValidQuestion qt j = true) ∧
    (generate_exam_questions qt count emp direct extracted).length ≤ count := by
  cases emp with
  | true =>
    refine ⟨fun _ => rfl, fun _ => rfl, fun _ _ _ => rfl, fun _ => rfl,
      fun _ _ _ h => absurd h (by simp), ?_, ?_⟩
    · intro j hj
      simp [generate_exam_questions] at hj
    · simp [generate_exam_questions]
  | false =>
    have hres : generate_exam_questions qt count false direct extracted =
        (match parsedResponse direct extracted with
         | Option.none => []
         | some j =>
           match j with
           | .arr qs =>
               if qs.isEmpty then []
               else (qs.filter (isValidQuestion qt)).take count
           | _ => []) := rfl
    rcases hp : parsedResponse direct extracted with _ | j
    · rw [hp] at hres
      refine ⟨by simp, fun _ => hres, fun j hj _ => absurd hj (by simp),
        fun h => absurd h (by simp), fun qs h _ _ => absurd h (by simp),
        ?_, ?_⟩
      · intro j hj
        rw [hres] at hj
        simp at hj
      · rw [hres]
        simp
    · rw [hp] at hres
      cases j with
      | arr qs =>
        cases qs with
        | nil =>
          refine ⟨by simp, by simp [hp], ?_, fun _ => hres, ?_, ?_, ?_⟩
          · intro j hj hne
            obtain rfl : j = Json.arr [] := (Option.some.inj hj).symm
            exact absurd rfl (hne [])
          · intro qs h hne
            obtain h2 : Json.arr [] = Json.arr qs := Option.some.inj (h)
            obtain rfl : ([] : List Json) = qs := by injection h2
            exact absurd rfl (fun h => hne h.symm)
          · intro j hj
            rw [hres] at hj
            simp at hj
          · rw [hres]
            simp
        | cons q0 qs0 =>
          have hres2 : generate_exam_questions qt count false direct extracted =
              ((q0 :: qs0).filter (isValidQuestion qt)).take count := by
            rw [hres]
            rfl
          refine ⟨by simp, by simp [hp], ?_, by simp [hp], ?_, ?_, ?_⟩
          · intro j hj hne
            obtain rfl : j = Json.arr (q0 :: qs0) := (Option.some.inj hj).symm
            exact absurd rfl (hne _)
          · intro qs h _ _
            obtain h2 : Json.arr (q0 :: qs0) = Json.arr qs := Option.some.inj (h)
            obtain rfl : (q0 :: qs0) = qs := by injection h2
            exact hres2
          · intro j hj
            rw [hres2] at hj
            have := List.mem_of_mem_take hj
            exact (List.mem_filter.1 this).2
          · rw [hres2]
            exact (List.length_take _ _).le.trans (by simp)
      | null =>
        refine ⟨by simp, by simp [hp], fun j hj hne => hres, by simp [hp],
          fun qs h _ _ => absurd (Option.some.inj (h)) (by simp), ?_, ?_⟩
        · intro j hj
          rw [hres] at hj
          simp at hj
        · rw [hres]
          simp
      | bool b =>
        refine ⟨by simp, by simp [hp], fun j hj hne => hres, by simp [hp],
          fun qs h _ _ => absurd (Option.some.inj (h)) (by simp), ?_, ?_⟩
        · intro j hj
          rw [hres] at hj
          simp at hj
        · rw [hres]
          simp
      | num n =>
        refine ⟨by simp, by simp [hp], fun j hj hne => hres, by simp [hp],
          fun qs h _ _ => absurd (Option.some.inj (h)) (by simp), ?_, ?_⟩
        · intro j hj
          rw [hres] at hj
          simp at hj
        · rw [hres]
          simp
      | str s =>
        refine ⟨by simp, by simp [hp], fun j hj hne => hres, by simp [hp],
          fun qs h _ _ => absurd (Option.some.inj (h)) (by simp), ?_, ?_⟩
        · intro j hj
          rw [hres] at hj
          simp at hj
        · rw [hres]
          simp
      | obj fields =>
        refine ⟨by simp, by simp [hp], fun j hj hne => hres, by simp [hp],
          fun qs h _ _ => absurd (Option.some.inj (h)) (by simp), ?_, ?_⟩
        · intro j hj
          rw [hres] at hj
          simp at hj
        · rw [hres]
          simp

/-- C7 witness: one invalid candidate is dropped and the output is truncated
to the requested count of 1. -/
theorem C7_witness :
    generate_exam_questions "判断题" 1 false
      (some (Json.arr [jsonInvalidCandidate, jsonValidCandidate, jsonValidCandidate]))
      Option.none = [jsonValidCandidate] :=
  ((C7_generate_questions "判断题" 1 false
      (some (Json.arr [jsonInvalidCandidate, jsonValidCandidate, jsonValidCandidate]))
      Option.none).2.2.2.2.1
    [jsonInvalidCandidate, jsonValidCandidate, jsonValidCandidate] rfl
    (List.cons_ne_nil _ _) rfl).trans (by rfl)

/-- Generated session ids are never the empty (falsy) string. -/
theorem sessionId_ne_empty (a b : String) : ("exam_" ++ a ++ "_" ++ b : String) ≠ "" := by
  intro h
  have h2 := congrArg String.length h
  simp only [String.length_append] at h2
  have h5 : ("exam_" : String).length = 5 := rfl
  have h1 : ("_" : String).length = 1 := rfl
  have h0 : ("" : String).length = 0 := rfl
  rw [h5, h1, h0] at h2
  omega

/-- C9: a session created through create_exam_session lacks auto_save_count,
so every save_answer call with well-formed parameters returns the 500 server
error (the increment raises KeyError before any write, leaving the persisted
unit unchanged), and no call whatsoever can return the success outcome. -/
theorem C9_created_session_unsavable (exam : Exam) (ts rnd now : String)
    (qi : Nat) (ans : PyVal) (now2 : String) (hans : ans ≠ PyVal.none) :
    save_answer (create_exam_session exam ts rnd now) qi ans now2 = SaveResult.serverError ∧
    (∀ (qi2 : Nat) (ans2 : PyVal) (now3 : String) (s : Session) (c : Int),
      save_answer (create_exam_session exam ts rnd now) qi2 ans2 now3 ≠ SaveResult.ok s c) := by
  have hsid : (create_exam_session exam ts rnd now).session_id ≠ "" :=
    sessionId_ne_empty ts rnd
  constructor
  · unfold save_answer
    rw [if_neg (not_not_intro ⟨hsid, hans⟩)]
    rfl
  · intro qi2 ans2 now3 s c
    unfold save_answer
    by_cases h : ¬((create_exam_session exam ts rnd now).session_id ≠ "" ∧ ans2 ≠ PyVal.none)
    · rw [if_pos h]
      exact fun hh => SaveResult.noConfusion hh
    · rw [if_neg h]
      exact fun hh => SaveResult.noConfusion hh

/-- C9 witness: saving a concrete answer to a freshly created session. -/
theorem C9_witness :
    save_answer (create_exam_session examMixed "20250101_120000" "deadbeef" "2025-01-01T12:00:00")
      0 (PyVal.str "A") "2025-01-01T12:01:00" = SaveResult.serverError ∧
    (∀ (qi2 : Nat) (ans2 : PyVal) (now3 : String) (s : Session) (c : Int),
      save_answer (create_exam_session examMixed "20250101_120000" "deadbeef"
        "2025-01-01T12:00:00") qi2 ans2 now3 ≠ SaveResult.ok s c) :=
  C9_created_session_unsavable examMixed "20250101_120000" "deadbeef" "2025-01-01T12:00:00"
    0 (PyVal.str "A") "2025-01-01T12:01:00" (by decide)

/-- Inserting under a key different from the head key skips the head. -/
theorem dictInsert_cons_ne {α : Type} (p : String × α) (d : List (String × α)) (k : String)
    (v : α) (hpk : ¬ p.1 = k) : dictInsert (p :: d) k v = p :: dictInsert d k v := by
  by_cases h : dictHas d k
  · have h2 : (d.any fun p => decide (p.1 = k)) = true := h
    simp [dictInsert, dictHas, hpk, h2]
  · have h2 : (d.any fun p => decide (p.1 = k)) = false := Bool.eq_false_iff.mpr h
    simp [dictInsert, dictHas, hpk, h2]

/-- Looking up the key just written returns the written value. -/
theorem dictFind_dictInsert_self {α : Type} (d : List (String × α)) (k : String) (v : α) :
    dictFind (dictInsert d k v) k = some v := by
  induction d with
  | nil => simp [dictFind, dictInsert, dictHas, List.find?]
  | cons p d ih =>
    by_cases hpk : p.1 = k
    · have hhas : dictHas (p :: d) k = true := by simp [dictHas, hpk]
      simp only [dictInsert, hhas, if_true, List.map_cons, hpk, if_pos]
      simp [dictFind, List.find?]
    · rw [dictInsert_cons_ne p d k v hpk]
      simp only [dictFind, List.find?]
      rw [decide_eq_false hpk]
      exact ih

/-- C10: submit_exam never checks the session status: submitting an
already-completed session succeeds again, recomputes the ScoreResult from
the session's current answers, overwrites end_time with the new submission
time, and rewrites both the session unit and the archive unit keyed
session_id_result. -/
theorem C10_resubmit_overwrites (store : Store) (sid now : String) (s : Session)
    (hsid : ¬ sid = "") (hfind : dictFind store.sessions sid = some s)
    (hstatus : s.status = "completed") :
    ∃ st2, submit_exam store sid now = SubmitResult.ok st2
        (calculate_exam_score s.exam_data s.answers) ∧
      dictFind st2.records (sid ++ "_result") =
        some { s with
                 status := "completed", end_time := some now,
                 score_result := some (calculate_exam_score s.exam_data s.answers) } ∧
      dictFind st2.sessions sid =
        some { s with
                 status := "completed", end_time := some now,
                 score_result := some (calculate_exam_score s.exam_data s.answers) } := by
  unfold submit_exam
  rw [if_neg hsid, hfind]
  exact ⟨_, rfl, dictFind_dictInsert_self _ _ _, dictFind_dictInsert_self _ _ _⟩

/-- A dict lookup with string default over string values yields a string. -/
theorem dictGet_str (answers : List (String × PyVal)) (k : String)
    (hstr : ∀ p ∈ answers, ∃ t, p.2 = PyVal.str t) :
    ∃ u, dictGet answers k (PyVal.str "") = PyVal.str u := by
  unfold dictGet
  cases hf : answers.find? (fun p => p.1 = k) with
  | none => exact ⟨"", rfl⟩
  | some p =>
    obtain ⟨t, ht⟩ := hstr p (List.mem_of_find?_eq_some hf)
    exact ⟨t, ht⟩

/-- A missing key makes the lookup return the default empty string. -/
theorem dictGet_of_find_none (answers : List (String × PyVal)) (k : String)
    (hmiss : dictFind answers k = Option.none) :
    dictGet answers k (PyVal.str "") = PyVal.str "" := by
  unfold dictGet
  unfold dictFind at hmiss
  cases hf : answers.find? (fun p => p.1 = k) with
  | none => rfl
  | some p => rw [hf] at hmiss; simp at hmiss

/-- Scoring a current-format question over string-valued answers never
raises. -/
theorem scoreQuestion_ok_of_current (i : Nat) (q : Question)
    (answers : List (String × PyVal))
    (hfmt : (q.qtype = some "choice" ∧ ∃ n, q.answer = some (PyVal.int n)) ∨
            (q.qtype = some "judge" ∧ ∃ b, q.answer = some (PyVal.bool b)))
    (hstr : ∀ p ∈ answers, ∃ t, p.2 = PyVal.str t) :
    ∃ r, scoreQuestion i q answers = Except.ok r := by
  obtain ⟨u, hu⟩ := dictGet_str answers (pyStrNat i) hstr
  rcases hfmt with ⟨hq, n, ha⟩ | ⟨hq, b, ha⟩
  · have hbranch : questionIsCorrect q (dictGet answers (pyStrNat i) (PyVal.str "")) =
        Except.ok (pyTruthy (dictGet answers (pyStrNat i) (PyVal.str "")) &&
          letterChoices.contains (pyUpper (pyStrip
            (pyStr (dictGet answers (pyStrNat i) (PyVal.str ""))))) &&
          decide (letterIndex (pyUpper (pyStrip
            (pyStr (dictGet answers (pyStrNat i) (PyVal.str ""))))) = pyIntVal (PyVal.int n))) := by
      unfold questionIsCorrect choiceIsCorrect
      rw [hq, if_pos rfl, ha]
      rfl
    exact ⟨_, scoreQuestion_eq i q answers _ hbranch⟩
  · have hbranch : questionIsCorrect q (dictGet answers (pyStrNat i) (PyVal.str "")) =
        Except.ok (decide ((if pyUpper u = "A" then some true
          else if pyUpper u = "B" then some false else Option.none) = some b)) := by
      unfold questionIsCorrect judgeIsCorrect
      rw [hq, if_neg (by decide), if_pos rfl, ha, hu]
      rfl
    exact ⟨_, scoreQuestion_eq i q answers _ hbranch⟩

/-- A missing answer to a current-format question scores incorrect with 0
points. -/
theorem scoreQuestion_missing (i : Nat) (q : Question) (answers : List (String × PyVal))
    (hfmt : (q.qtype = some "choice" ∧ ∃ n, q.answer = some (PyVal.int n)) ∨
            (q.qtype = some "judge" ∧ ∃ b, q.answer = some (PyVal.bool b)))
    (hmiss : dictFind answers (pyStrNat i) = Option.none) :
    ∃ r, scoreQuestion i q answers = Except.ok r ∧ r.is_correct = false ∧
      r.earned_score = 0 := by
  have hget := dictGet_of_find_none answers (pyStrNat i) hmiss
  rcases hfmt with ⟨hq, n, ha⟩ | ⟨hq, b, ha⟩
  · have hbranch : questionIsCorrect q (dictGet answers (pyStrNat i) (PyVal.str "")) =
        Except.ok false := by
      unfold questionIsCorrect choiceIsCorrect
      rw [hq, if_pos rfl, ha, hget]
      rfl
    exact ⟨_, scoreQuestion_eq i q answers false hbranch, rfl, rfl⟩
  · have hbranch : questionIsCorrect q (dictGet answers (pyStrNat i) (PyVal.str "")) =
        Except.ok false := by
      unfold questionIsCorrect judgeIsCorrect
      rw [hq, if_neg (by decide), if_pos rfl, ha, hget]
      simp only [pyUpperVal, Except.bind, bind]
      rw [show pyUpper "" = "" from by decide,
        if_neg (by decide : ¬("" : String) = "A"),
        if_neg (by decide : ¬("" : String) = "B")]
      simp
    exact ⟨_, scoreQuestion_eq i q answers false hbranch, rfl, rfl⟩

/-- The scoring loop succeeds on current-format questions with string-valued
answers, producing one result per question, each computed independently by
the per-question scorer. -/
theorem scoreLoop_ok (answers : List (String × PyVal))
    (hstr : ∀ p ∈ answers, ∃ t, p.2 = PyVal.str t) :
    ∀ (qs : List Question) (i : Nat),
    (∀ q ∈ qs, (q.qtype = some "choice" ∧ ∃ n, q.answer = some (PyVal.int n)) ∨
               (q.qtype = some "judge" ∧ ∃ b, q.answer = some (PyVal.bool b))) →
    ∃ t f rs, scoreLoop answers qs i = Except.ok (t, f, rs) ∧ rs.length = qs.length ∧
      (∀ j q r, qs.get? j = some q → rs.get? j = some r →
        scoreQuestion (i + j) q answers = Except.ok r) := by
  intro qs
  induction qs with
  | nil =>
    intro i _
    exact ⟨0, 0, [], rfl, rfl, by intro j q r h; simp at h⟩
  | cons q qs ih =>
    intro i hfmt
    obtain ⟨r, hr⟩ := scoreQuestion_ok_of_current i q answers
      (hfmt q (List.mem_cons_self q qs)) hstr
    obtain ⟨t, f, rs, hloop, hlen, hidx⟩ :=
      ih (i + 1) (fun q2 hq2 => hfmt q2 (List.mem_cons_of_mem q hq2))
    refine ⟨r.earned_score + t, r.full_score + f, r :: rs, ?_, by simp [hlen], ?_⟩
    · simp only [scoreLoop, hr, hloop]
    · intro j q2 r2 hq2 hr2
      cases j with
      | zero =>
        simp only [List.get?] at hq2 hr2
        obtain rfl := Option.some.inj hq2
        obtain rfl := Option.some.inj hr2
        simpa using hr
      | succ j =>
        simp only [List.get?] at hq2 hr2
        have := hidx j q2 r2 hq2 hr2
        have harith : i + 1 + j = i + (j + 1) := by omega
        rwa [harith] at this

/-- C1 (amended): for exams in the current stored-answer format and answer
maps whose values are strings, calculate_exam_score completes without taking
the except branch, produces one result per question, scores every question
independently through the per-question scorer, and a question whose answer is
missing scores incorrect with 0 points for that question only. -/
theorem C1_score_degrades (exam : Exam) (answers : List (String × PyVal))
    (hfmt : ∀ q ∈ exam.questions,
      (q.qtype = some "choice" ∧ ∃ n, q.answer = some (PyVal.int n)) ∨
      (q.qtype = some "judge" ∧ ∃ b, q.answer = some (PyVal.bool b)))
    (hstr : ∀ p ∈ answers, ∃ t, p.2 = PyVal.str t) :
    (calculate_exam_score exam answers).error = false ∧
    (calculate_exam_score exam answers).question_results.length =
      exam.questions.length ∧
    (∀ j q r, exam.questions.get? j = some q →
      (calculate_exam_score exam answers).question_results.get? j = some r →
      scoreQuestion j q answers = Except.ok r) ∧
    (∀ j q r, exam.questions.get? j = some q →
      (calculate_exam_score exam answers).question_results.get? j = some r →
      dictFind answers (pyStrNat j) = Option.none →
      r.is_correct = false ∧ r.earned_score = 0) := by
  obtain ⟨t, f, rs, hloop, hlen, hidx⟩ := scoreLoop_ok answers hstr exam.questions 0 hfmt
  have hcalc : (calculate_exam_score exam answers).question_results = rs ∧
      (calculate_exam_score exam answers).error = false := by
    unfold calculate_exam_score
    rw [hloop]
    exact ⟨rfl, rfl⟩
  refine ⟨hcalc.2, by rw [hcalc.1]; exact hlen, ?_, ?_⟩
  · intro j q r hq hr
    rw [hcalc.1] at hr
    simpa using hidx j q r hq hr
  · intro j q r hq hr hmiss
    rw [hcalc.1] at hr
    have h1 : scoreQuestion j q answers = Except.ok r := by
      simpa using hidx j q r hq hr
    obtain ⟨r2, h2, hic, hes⟩ := scoreQuestion_missing j q answers
      (hfmt q (List.get?_mem hq)) hmiss
    obtain rfl : r = r2 := Except.ok.inj (h1.symm.trans h2)
    exact ⟨hic, hes⟩

/-- C1 counterexample: with a malformed non-string answer to question 0 the
whole scoring degrades to the all-zero result with empty question_results,
although question 1 carried a correct answer that the per-question scorer
alone would have scored with full points — refuting that a malformed answer
degrades only that question while every other question is still scored. -/
theorem C1_counterexample :
    (calculate_exam_score examTwoJudge answersMalformed0).question_results = [] ∧
    (calculate_exam_score examTwoJudge answersMalformed0).total_score = 0 ∧
    (calculate_exam_score examTwoJudge answersMalformed0).error = true ∧
    scoreQuestion 1 qJudgeTrue answersMalformed0 = Except.ok
      { question_index := 1, question := "数据库是软件",
        user_answer := PyVal.str "正确", correct_answer := PyVal.str "正确",
        is_correct := true, earned_score := 1, full_score := 1,
        question_type := "judge" } :=
  ⟨by decide, by decide, by decide, by rfl⟩

/-- C1 witness: a two-question exam where question 0's answer is missing. -/
theorem C1_witness :
    (calculate_exam_score examTwoJudge [("1", PyVal.str "A")]).error = false ∧
    (calculate_exam_score examTwoJudge [("1", PyVal.str "A")]).question_results.length =
      examTwoJudge.questions.length ∧
    (∀ j q r, examTwoJudge.questions.get? j = some q →
      (calculate_exam_score examTwoJudge [("1", PyVal.str "A")]).question_results.get? j =
        some r →
      scoreQuestion j q [("1", PyVal.str "A")] = Except.ok r) ∧
    (∀ j q r, examTwoJudge.questions.get? j = some q →
      (calculate_exam_score examTwoJudge [("1", PyVal.str "A")]).question_results.get? j =
        some r →
      dictFind [("1", PyVal.str "A")] (pyStrNat j) = Option.none →
      r.is_correct = false ∧ r.earned_score = 0) :=
  C1_score_degrades examTwoJudge [("1", PyVal.str "A")]
    (by
      intro q hq
      simp only [examTwoJudge, List.mem_cons, List.not_mem_nil, or_false] at hq
      rcases hq with rfl | rfl
      · exact Or.inr ⟨rfl, true, rfl⟩
      · exact Or.inr ⟨rfl, true, rfl⟩)
    (by
      intro p hp
      simp only [List.mem_singleton] at hp
      subst hp
      exact ⟨"A", rfl⟩)

/-- A save_answer call on a session carrying auto_save_count succeeds and
writes the new answer under the stringified index. -/
theorem save_answer_ok (s : Session) (i : Nat) (a : PyVal) (now : String) (c : Int)
    (hsid : s.session_id ≠ "") (hc : s.auto_save_count = some c) (ha : a ≠ PyVal.none) :
    save_answer s i a now = SaveResult.ok
      { s with answers := dictInsert s.answers (pyStrNat i) a,
               auto_save_count := some (c + 1), last_save_time := some now } (c + 1) := by
  unfold save_answer
  rw [if_neg (not_not_intro ⟨hsid, ha⟩), hc]

/-- Key membership across an appended singleton. -/
theorem dictHas_append_single {α : Type} (d : List (String × α)) (k k2 : String) (v : α) :
    dictHas (d ++ [(k, v)]) k2 = (dictHas d k2 || decide (k = k2)) := by
  simp [dictHas, List.any_append]

/-- Invariant of a run of save_answer calls with fresh, pairwise distinct
keys: all calls succeed, the counter advances by the number of calls and the
answers dict is extended by exactly the written entries in order. -/
theorem runSaves_invariant (now : String) :
    ∀ (saves : List (Nat × PyVal)) (s : Session) (c : Int),
    s.session_id ≠ "" →
    s.auto_save_count = some c →
    (saves.map Prod.fst).Nodup →
    (∀ p ∈ saves, p.2 ≠ PyVal.none) →
    (∀ p ∈ saves, dictHas s.answers (pyStrNat p.1) = false) →
    ∃ s2, runSaves now s saves = some s2 ∧
      s2.auto_save_count = some (c + saves.length) ∧
      s2.answers = s.answers ++ saves.map (fun p => (pyStrNat p.1, p.2)) ∧
      s2.session_id = s.session_id := by
  intro saves
  induction saves with
  | nil =>
    intro s c h1 h2 _ _ _
    exact ⟨s, rfl, by simpa using h2, by simp, rfl⟩
  | cons p rest ih =>
    intro s c hsid hc hnodup hvals hfresh
    obtain ⟨i, a⟩ := p
    have hodk := save_answer_ok s i a now c hsid hc
      (hvals (i, a) (List.mem_cons_self _ _))
    have hfreshi : dictHas s.answers (pyStrNat i) = false :=
      hfresh (i, a) (List.mem_cons_self _ _)
    have hins : dictInsert s.answers (pyStrNat i) a = s.answers ++ [(pyStrNat i, a)] := by
      unfold dictInsert
      rw [hfreshi]
      rfl
    have hnodup2 : (rest.map Prod.fst).Nodup := (List.nodup_cons.1 hnodup).2
    have hnotmem : i ∉ rest.map Prod.fst := (List.nodup_cons.1 hnodup).1
    have hfresh2 : ∀ p ∈ rest,
        dictHas (dictInsert s.answers (pyStrNat i) a) (pyStrNat p.1) = false := by
      intro p hp
      rw [hins, dictHas_append_single]
      have h1 : dictHas s.answers (pyStrNat p.1) = false :=
        hfresh p (List.mem_cons_of_mem _ hp)
      have h2 : pyStrNat i ≠ pyStrNat p.1 := by
        intro he
        have h3 : i = p.1 := pyStrNat_inj he
        exact hnotmem (h3 ▸ List.mem_map_of_mem Prod.fst hp)
      rw [h1, decide_eq_false h2]
      rfl
    obtain ⟨s2, hrun, hcount, hans, hsid2⟩ := ih
      { s with answers := dictInsert s.answers (pyStrNat i) a,
               auto_save_count := some (c + 1), last_save_time := some now }
      (c + 1) hsid rfl hnodup2
      (fun p hp => hvals p (List.mem_cons_of_mem _ hp)) hfresh2
    refine ⟨s2, ?_, ?_, ?_, hsid2⟩
    · simp only [runSaves, hodk]
      exact hrun
    · rw [hcount]
      congr 1
      simp only [List.length_cons]
      push_cast
      ring
    · rw [hans]
      simp only [hins, List.map_cons, List.append_assoc, List.cons_append,
        List.nil_append]

/-- C6: starting from a start_exam session (empty answers, auto_save_count
0), after N successful save_answer calls with pairwise distinct question
indices the session's auto_save_count equals N and its answers map holds
exactly those N entries, each keyed by the decimal string form of its
question index. -/
theorem C6_saves_accumulate (exam : Exam) (student ts hs now now2 : String)
    (saves : List (Nat × PyVal))
    (hnodup : (saves.map Prod.fst).Nodup)
    (hvals : ∀ p ∈ saves, p.2 ≠ PyVal.none) :
    ∃ s2, runSaves now2 (start_exam exam student ts hs now) saves = some s2 ∧
      s2.auto_save_count = some (saves.length : Int) ∧
      s2.answers = saves.map (fun p => (pyStrNat p.1, p.2)) := by
  obtain ⟨s2, h1, h2, h3, _⟩ := runSaves_invariant now2 saves
    (start_exam exam student ts hs now) 0 (sessionId_ne_empty ts hs) rfl hnodup hvals
    (fun p _ => rfl)
  refine ⟨s2, h1, ?_, ?_⟩
  · rw [h2]
    congr 1
    omega
  · rw [h3]
    rfl

/-- C6 witness: two saves on distinct indices 0 and 2. -/
theorem C6_witness :
    ∃ s2, runSaves "2025-01-01T12:05:00"
        (start_exam examMixed "张三" "20250101_120000" "12345" "2025-01-01T12:00:00")
        [(0, PyVal.str "C"), (2, PyVal.str "A")] = some s2 ∧
      s2.auto_save_count = some ((2 : Nat) : Int) ∧
      s2.answers = [(0, PyVal.str "C"), (2, PyVal.str "A")].map
        (fun p => (pyStrNat p.1, p.2)) := by
  have h := C6_saves_accumulate examMixed "张三" "20250101_120000" "12345"
    "2025-01-01T12:00:00" "2025-01-01T12:05:00"
    [(0, PyVal.str "C"), (2, PyVal.str "A")] (by decide) (by decide)
  simpa using h

/-- Transitivity of the code-point lexicographic comparison. -/
theorem lexLe_trans : ∀ (a b c : List Char), lexLe a b = true → lexLe b c = true →
    lexLe a c = true := by
  intro a
  induction a with
  | nil => intro b c _ _; rfl
  | cons x xs ih =>
    intro b c hab hbc
    cases b with
    | nil => simp [lexLe] at hab
    | cons y ys =>
      cases c with
      | nil => simp [lexLe] at hbc
      | cons z zs =>
        simp only [lexLe] at hab hbc ⊢
        split_ifs at hab hbc ⊢ <;>
          first
            | rfl
            | omega
            | (exact ih ys zs hab hbc)

/-- Totality of the code-point lexicographic comparison. -/
theorem lexLe_total : ∀ (a b : List Char), (lexLe a b || lexLe b a) = true := by
  intro a
  induction a with
  | nil => intro b; rfl
  | cons x xs ih =>
    intro b
    cases b with
    | nil => rfl
    | cons y ys =>
      simp only [lexLe]
      by_cases h1 : x.toNat < y.toNat
      · simp [h1]
      · by_cases h2 : y.toNat < x.toNat
        · simp [h1, h2]
        · simp only [h1, h2, if_false]
          exact ih ys

/-- Only the empty list compares at most the empty list. -/
theorem lexLe_nil_iff : ∀ (a : List Char), lexLe a [] = true → a = [] := by
  intro a h
  cases a with
  | nil => rfl
  | cons x xs => simp [lexLe] at h

/-- The empty string is the least string. -/
theorem strLe_empty_iff (s : String) (h : strLe s "" = true) : s = "" := by
  obtain ⟨data⟩ := s
  have h2 : data = [] := lexLe_nil_iff data h
  rw [h2]

/-- Insertion permutes. -/
theorem insertByEnd_perm (x : RecordSummary) (l : List RecordSummary) :
    (insertByEnd x l).Perm (x :: l) := by
  induction l with
  | nil => exact List.Perm.refl _
  | cons y ys ih =>
    unfold insertByEnd
    by_cases h : strLe y.end_time x.end_time = true
    · rw [if_pos h]
    · rw [if_neg h]
      exact (List.Perm.cons y ih).trans (List.Perm.swap x y ys)

/-- The descending sort is a permutation. -/
theorem sortByEndDesc_perm (l : List RecordSummary) : (sortByEndDesc l).Perm l := by
  induction l with
  | nil => exact List.Perm.refl _
  | cons x xs ih =>
    exact (insertByEnd_perm x (sortByEndDesc xs)).trans (List.Perm.cons x ih)

/-- Members of an insertion. -/
theorem mem_insertByEnd (b x : RecordSummary) (l : List RecordSummary)
    (h : b ∈ insertByEnd x l) : b = x ∨ b ∈ l := by
  have h2 := (insertByEnd_perm x l).mem_iff.1 h
  simpa using h2

/-- Insertion preserves descending sortedness. -/
theorem pairwise_insertByEnd (x : RecordSummary) (l : List RecordSummary)
    (hl : l.Pairwise (fun a b => strLe b.end_time a.end_time = true)) :
    (insertByEnd x l).Pairwise (fun a b => strLe b.end_time a.end_time = true) := by
  induction l with
  | nil => simp [insertByEnd]
  | cons y ys ih =>
    obtain ⟨hy, hys⟩ := List.pairwise_cons.1 hl
    unfold insertByEnd
    by_cases h : strLe y.end_time x.end_time = true
    · rw [if_pos h]
      refine List.pairwise_cons.2 ⟨?_, hl⟩
      intro b hb
      rcases List.mem_cons.1 hb with rfl | hb2
      · exact h
      · exact lexLe_trans _ _ _ (hy b hb2) h
    · rw [if_neg h]
      refine List.pairwise_cons.2 ⟨?_, ih hys⟩
      intro b hb
      rcases mem_insertByEnd b x ys hb with rfl | hb2
      · have htot := lexLe_total b.end_time.data y.end_time.data
        rw [Bool.or_eq_true] at htot
        rcases htot with h1 | h1
        · exact h1
        · exact absurd h1 h
      · exact hy b hb2

/-- The sort output is descending in end_time. -/
theorem sortByEndDesc_pairwise (l : List RecordSummary) :
    (sortByEndDesc l).Pairwise (fun a b => strLe b.end_time a.end_time = true) := by
  induction l with
  | nil => simp [sortByEndDesc]
  | cons x xs ih => exact pairwise_insertByEnd x (sortByEndDesc xs) ih

/-- Summarizing the readable units commutes with dropping the unreadable
ones. -/
theorem filterMap_map_summarize (files : List (Option Session)) :
    files.filterMap (fun f => f.map summarize) = (files.filterMap id).map summarize := by
  induction files with
  | nil => rfl
  | cons f fs ih =>
    cases f with
    | none => simpa using ih
    | some r => simpa using ih

/-- C8 (amended): the listing holds one summary per readable archive unit
(corrupt units are skipped, not fatal), is a permutation of their summaries
and is sorted by end_time descending; consequently a summary whose end_time
is missing (empty string) can only be followed by other empty-end_time
summaries, i.e. missing end_time sorts last. -/
theorem C8_records_sorted (files : List (Option Session)) :
    (get_exam_records files).Perm ((files.filterMap id).map summarize) ∧
    (get_exam_records files).length = (files.filterMap id).length ∧
    (get_exam_records files).Pairwise (fun a b => strLe b.end_time a.end_time = true) ∧
    (get_exam_records files).Pairwise
      (fun a b => a.end_time = "" → b.end_time = "") := by
  have hperm : (get_exam_records files).Perm ((files.filterMap id).map summarize) := by
    unfold get_exam_records
    rw [filterMap_map_summarize]
    exact sortByEndDesc_perm _
  have hpw : (get_exam_records files).Pairwise
      (fun a b => strLe b.end_time a.end_time = true) := by
    unfold get_exam_records
    exact sortByEndDesc_pairwise (files.filterMap (fun f => f.map summarize))
  refine ⟨hperm, ?_, hpw, ?_⟩
  · rw [hperm.length_eq, List.length_map]
  · refine hpw.imp ?_
    intro a b hR he
    rw [he] at hR
    exact strLe_empty_iff _ hR

/-- C8 counterexample: with one dated and one missing-end_time record, the
dated record is listed first and the missing-end_time record last — refuting
that a record with missing end_time sorts first. -/
theorem C8_counterexample :
    get_exam_records [some recMissingEnd, some recDated] =
      [summarize recDated, summarize recMissingEnd] ∧
    (summarize recMissingEnd).end_time = "" ∧
    (summarize recDated).end_time = "2025-01-01T11:30:00" :=
  ⟨by decide, rfl, rfl⟩

/-- C10 witness: re-submitting the already-completed archived session. -/
theorem C10_witness :
    ∃ st2, submit_exam storeSample "exam_20250101_110000_bb" "2025-01-02T09:00:00" =
        SubmitResult.ok st2 (calculate_exam_score recDated.exam_data recDated.answers) ∧
      dictFind st2.records ("exam_20250101_110000_bb" ++ "_result") =
        some { recDated with
                 status := "completed", end_time := some "2025-01-02T09:00:00",
                 score_result :=
                   some (calculate_exam_score recDated.exam_data recDated.answers) } ∧
      dictFind st2.sessions "exam_20250101_110000_bb" =
        some { recDated with
                 status := "completed", end_time := some "2025-01-02T09:00:00",
                 score_result :=
                   some (calculate_exam_score recDated.exam_data recDated.answers) } :=
  C10_resubmit_overwrites storeSample "exam_20250101_110000_bb" "2025-01-02T09:00:00"
    recDated (by decide) (by decide) rfl

